import Mathlib

/-!
Shallow embedding of the trading-assistant core (chart series, indicator
functions, risk manager, trade execution, position registry, connection
reconnection logic) of this repository, with theorems checking the
specification's claims against the embedded code.

Numeric values are modelled as exact rationals (the JavaScript source uses
IEEE doubles); `Math.sqrt` in the Bollinger-band computation is abstracted
as an explicit function parameter, and `Math.random`/`Date.now` results are
passed in as explicit arguments.
-/

namespace Webview

/-! ## Configuration constants (src/js/config.js) -/

namespace CONFIG

def MAX_CHART_POINTS : ℕ := 1000

def MIN_VOLUME : ℚ := 1/100

def MAX_VOLUME : ℚ := 100

def MAX_RISK_PERCENT : ℚ := 5

def MAX_POSITIONS : ℕ := 10

def MAX_RECONNECT_ATTEMPTS : ℕ := 5

end CONFIG

/-! ## String helpers modelling JavaScript number formatting -/

/-- JavaScript `Number.prototype.toFixed(2)` on a nonnegative number:
round to two decimals and print with exactly two fraction digits. -/
def ratToFixed2 (q : ℚ) : String :=
  let n : ℤ := round (q * 100)
  let whole := n / 100
  let frac := (n % 100).toNat
  toString whole ++ "." ++ (if frac < 10 then "0" else "") ++ toString frac

/-- JavaScript default number-to-string conversion for the values used in
template literals here: an integer prints with no decimal point. -/
def jsNumToString (q : ℚ) : String :=
  if q.den = 1 then toString q.num else ratToFixed2 q

/-- Does the character list `l` start with the character list `p`? -/
def charsStartWith : List Char → List Char → Bool
  | _, [] => true
  | [], _ :: _ => false
  | c :: cs, p :: ps => c == p && charsStartWith cs ps

/-- Does the character list `l` contain `p` as a contiguous run? -/
def charsContain : List Char → List Char → Bool
  | [], p => p.isEmpty
  | c :: cs, p => charsStartWith (c :: cs) p || charsContain cs p

/-- `strMentions s sub` holds when `sub` occurs verbatim inside `s`. -/
def strMentions (s sub : String) : Bool :=
  charsContain s.data sub.data

/-- JavaScript truthiness of a possibly-absent number: `null`/`undefined`
and `0` are falsy, every other number is truthy. -/
def truthyOpt (o : Option ℚ) : Bool :=
  o.getD 0 != 0

/-! ## Data model -/

/-- An account snapshot as read by the risk manager
(`window.ctraderSDK.accountInfo`). -/
structure Account where
  balance : ℚ
  freeMargin : ℚ
  deriving DecidableEq, Repr

/-- Order side. -/
inductive Side
  | buy
  | sell
  deriving DecidableEq, Repr

/-- Trade parameters as assembled by `TradingEngine.getTradeParameters`. -/
structure TradeParams where
  symbol : String
  side : Side
  volume : ℚ
  stopLoss : Option ℚ
  takeProfit : Option ℚ
  currentPrice : Option ℚ
  deriving DecidableEq, Repr

/-! ## TradingUtils.calculateMargin (src/sw.js lines 364-366) -/

/-- `calculateMargin(volume, price, leverage = 100)`:
`(volume * 100000 * price) / leverage`. -/
def calculateMargin (volume price : ℚ) (leverage : ℚ := 100) : ℚ :=
  volume * 100000 * price / leverage

/-! ## RiskManager.checkTrade (src/js/trading.js lines 950-986) -/

/-- Result of a risk check: `{allowed, reason?}`. -/
structure RiskResult where
  allowed : Bool
  reason : Option String
  deriving DecidableEq, Repr

/-- The risk amount computed by check 3 of `RiskManager.checkTrade`:
`Math.abs(params.currentPrice - params.stopLoss) * params.volume * 100000`. -/
def riskAmountOf (params : TradeParams) : ℚ :=
  |params.currentPrice.getD 0 - params.stopLoss.getD 0| * params.volume * 100000

/-- The risk percentage computed by check 3 of `RiskManager.checkTrade`:
`(riskAmount / account.balance) * 100`. -/
def riskPercentOf (account : Account) (params : TradeParams) : ℚ :=
  riskAmountOf params / account.balance * 100

/-- `RiskManager.checkTrade(params)`, with the ambient reads
(`window.tradingEngine.positions.size`, `window.ctraderSDK?.accountInfo`)
made explicit arguments.  Checks run in source order: (1) open-position
count, (2) required margin (only when an account snapshot is present;
a missing current price makes the required margin `NaN`, whose comparison
is false), (3) per-trade risk (only when stop-loss, current price and
account are all truthy), returning on first failure. -/
def checkTrade (positionsCount : ℕ) (account : Option Account)
    (params : TradeParams) : RiskResult :=
  if positionsCount ≥ CONFIG.MAX_POSITIONS then
    ⟨false, some ("Maximum positions limit reached (" ++
       toString CONFIG.MAX_POSITIONS ++ ")")⟩
  else
    match account with
    | none => ⟨true, none⟩
    | some acct =>
      if params.currentPrice.any
          (fun p => decide (calculateMargin params.volume p > acct.freeMargin)) then
        ⟨false, some "Insufficient margin"⟩
      else if truthyOpt params.stopLoss && truthyOpt params.currentPrice then
        let riskPercent := riskPercentOf acct params
        if riskPercent > CONFIG.MAX_RISK_PERCENT then
          ⟨false, some ("Risk too high (" ++ ratToFixed2 riskPercent ++
             "% > " ++ jsNumToString CONFIG.MAX_RISK_PERCENT ++ "%)")⟩
        else ⟨true, none⟩
      else ⟨true, none⟩

/-! ## TradingEngine.validateTrade (src/js/trading.js lines 217-263) -/

/-- Result of structural validation: `{isValid, errors}`. -/
structure Validation where
  isValid : Bool
  errors : List String
  deriving DecidableEq, Repr

/-- `TradingEngine.validateTrade(params)`: accumulates error strings in
source order; `isValid` iff no error was pushed. -/
def validateTrade (params : TradeParams) : Validation :=
  let errors :=
    (if params.volume ≤ 0 then ["Invalid volume"] else []) ++
    (if params.volume < CONFIG.MIN_VOLUME then
      ["Volume below minimum (" ++ jsNumToString CONFIG.MIN_VOLUME ++ ")"]
     else []) ++
    (if params.volume > CONFIG.MAX_VOLUME then
      ["Volume above maximum (" ++ jsNumToString CONFIG.MAX_VOLUME ++ ")"]
     else []) ++
    (if truthyOpt params.stopLoss && truthyOpt params.currentPrice then
      let sl := params.stopLoss.getD 0
      let cp := params.currentPrice.getD 0
      let isValidSL : Bool := match params.side with
        | .buy => sl < cp
        | .sell => sl > cp
      if isValidSL then [] else ["Invalid stop loss level"]
     else []) ++
    (if truthyOpt params.takeProfit && truthyOpt params.currentPrice then
      let tp := params.takeProfit.getD 0
      let cp := params.currentPrice.getD 0
      let isValidTP : Bool := match params.side with
        | .buy => tp > cp
        | .sell => tp < cp
      if isValidTP then [] else ["Invalid take profit level"]
     else []) ++
    (if params.symbol.length < 6 then ["Invalid symbol"] else [])
  ⟨errors.isEmpty, errors⟩

/-! ## TradingEngine.executeTrade (src/js/trading.js lines 127-214) -/

/-- Result of a market-order submission: `{success, error?}`. -/
structure ExecResult where
  success : Bool
  error : Option String
  deriving DecidableEq, Repr

/-- The environment an `executeTrade` call runs in: the ambient state it
reads and the outcomes of its external interactions (confirmation dialog,
SDK transport call, mock execution randomness). -/
structure ExecEnv where
  positionsCount : ℕ
  account : Option Account
  confirmLargeTrade : Bool
  sdkReady : Bool
  transportResult : ExecResult
  mockResult : ExecResult
  deriving DecidableEq, Repr

/-- Observable outcome of one `executeTrade` call: the returned result,
how many transport order calls were made (`createMarketOrder`), how many
`performanceTracker.recordTrade` calls ran, and how many failed entries
`handleTradeError` pushed onto the trading history. -/
structure ExecOutcome where
  result : ExecResult
  transportCalls : ℕ
  perfRecords : ℕ
  historyFailed : ℕ
  deriving DecidableEq, Repr

/-- `TradingEngine.executeTrade(side, params)` along its synchronous paths:
structural validation, then risk check, then large-trade confirmation,
then `executeMarketOrder` (SDK transport when ready, mock otherwise).
On success both `handleTradeSuccess` and `executeTrade` itself call
`recordTrade`; on a reported failure `handleTradeError` pushes one failed
history entry and no `recordTrade` runs. -/
def executeTrade (env : ExecEnv) (params : TradeParams) : ExecOutcome :=
  let validation := validateTrade params
  if !validation.isValid then
    ⟨⟨false, some (String.intercalate ", " validation.errors)⟩, 0, 0, 0⟩
  else
    let riskCheck := checkTrade env.positionsCount env.account params
    if !riskCheck.allowed then
      ⟨⟨false, riskCheck.reason⟩, 0, 0, 0⟩
    else if params.volume > 1 && !env.confirmLargeTrade then
      ⟨⟨false, some "Trade cancelled by user"⟩, 0, 0, 0⟩
    else
      let result := if env.sdkReady then env.transportResult else env.mockResult
      let calls : ℕ := if env.sdkReady then 1 else 0
      if result.success then ⟨result, calls, 2, 0⟩
      else ⟨result, calls, 0, 1⟩

/-! ## ChartManager series state (src/js/chart.js) -/

/-- One chart point `{x: timestamp, y: value}`. -/
structure Point where
  x : ℤ
  y : ℚ
  deriving DecidableEq, Repr

instance : Inhabited Point := ⟨⟨0, 0⟩⟩

/-- An incoming quote as consumed by `ChartManager.updatePriceData`. -/
structure Quote where
  symbol : String
  bid : ℚ
  ask : ℚ
  deriving DecidableEq, Repr

/-- The chart series state: the active symbol and the bounded price and
volume series. -/
structure ChartState where
  currentSymbol : String
  priceData : List Point
  volumeData : List Point
  deriving DecidableEq, Repr

/-- `ChartManager.updatePriceData(quote)` (src/js/chart.js lines 278-319):
ignore quotes for other symbols; otherwise push a mid-price point and a
synthetic volume point, then if the price series exceeds
`MAX_CHART_POINTS` shift one point off the head of both series.
`Date.now()` is the explicit `now` argument and `Math.random()` the
explicit `rand` argument. -/
def updatePriceData (st : ChartState) (q : Quote) (now : ℤ) (rand : ℚ) :
    ChartState :=
  if q.symbol ≠ st.currentSymbol then st
  else
    let price := (q.bid + q.ask) / 2
    let pd := st.priceData ++ [⟨now, price⟩]
    let vd := st.volumeData ++ [⟨now, rand * 500 + 250⟩]
    if pd.length > CONFIG.MAX_CHART_POINTS then
      { st with priceData := pd.tail, volumeData := vd.tail }
    else
      { st with priceData := pd, volumeData := vd }

/-- A stream of quotes with their arrival times and the random volume
draws, processed in order by `updatePriceData`. -/
def processQuotes (st : ChartState) (events : List (Quote × ℤ × ℚ)) :
    ChartState :=
  events.foldl (fun s e => updatePriceData s e.1 e.2.1 e.2.2) st

/-! ## Indicator functions (src/js/chart.js lines 389-474) -/

/-- The inner accumulation loop of `calculateSMA`:
`for (j = 0; j < period; j++) sum += priceData[i - j].y`. -/
def smaWindowSum (data : List Point) (i period : ℕ) : ℚ :=
  ((List.range period).map (fun j => (data.getD (i - j) default).y)).sum

/-- `ChartManager.calculateSMA(period)`: empty when the series is shorter
than `period`; otherwise one point per index `i` from `period - 1` to the
end, carrying the window sum divided by `period`. -/
def calculateSMA (data : List Point) (period : ℕ) : List Point :=
  if data.length < period then []
  else
    (List.range (data.length - (period - 1))).map (fun k =>
      ⟨(data.getD (period - 1 + k) default).x,
       smaWindowSum data (period - 1 + k) period / period⟩)

/-- One step of the EMA recurrence:
`(price - prev) * multiplier + prev`. -/
def emaStep (k prev price : ℚ) : ℚ :=
  (price - prev) * k + prev

/-- The tail loop of `calculateEMA`: starting from the previous EMA value,
map each remaining price point to its EMA point, threading the recurrence. -/
def emaTail (k : ℚ) (prev : ℚ) : List Point → List Point
  | [] => []
  | p :: ps =>
    let v := emaStep k prev p.y
    ⟨p.x, v⟩ :: emaTail k v ps

/-- `ChartManager.calculateEMA(period)`: empty when the series is shorter
than `period`; otherwise the first value is the simple average of the
first `period` prices (stamped at index `period - 1`) and the remaining
values follow the recurrence with multiplier `2 / (period + 1)`. -/
def calculateEMA (data : List Point) (period : ℕ) : List Point :=
  if data.length < period then []
  else
    let multiplier : ℚ := 2 / ((period : ℚ) + 1)
    let firstY := ((data.take period).map Point.y).sum / period
    ⟨(data.getD (period - 1) default).x, firstY⟩ ::
      emaTail multiplier firstY (data.drop period)

/-- The three Bollinger band series. -/
structure BollingerBands where
  upper : List Point
  middle : List Point
  lower : List Point
  deriving DecidableEq, Repr

/-- The squared-deviation window sum of `calculateBollingerBands`:
`for (j = 0; j < period; j++) { diff = priceData[dataIndex - j].y - sma[i].y; sum += diff * diff }`. -/
def bbWindowSqSum (data : List Point) (dataIndex period : ℕ) (m : ℚ) : ℚ :=
  ((List.range period).map
    (fun j => ((data.getD (dataIndex - j) default).y - m) *
              ((data.getD (dataIndex - j) default).y - m))).sum

/-- `ChartManager.calculateBollingerBands(period, stdDev)`: middle band is
the SMA; the deviation is `sqrt(sum of squared deviations / period)` over
the same trailing window; upper/lower are middle plus/minus
`deviation * stdDev`.  `Math.sqrt` is abstracted as the `sqrtFn`
parameter. -/
def calculateBollingerBands (sqrtFn : ℚ → ℚ) (data : List Point)
    (period : ℕ) (stdDev : ℚ) : BollingerBands :=
  let sma := calculateSMA data period
  if sma.length = 0 then ⟨[], [], []⟩
  else
    let row := fun (i : ℕ) =>
      let smaPt := sma.getD i default
      let dataIndex := i + period - 1
      let variance := bbWindowSqSum data dataIndex period smaPt.y / period
      let standardDeviation := sqrtFn variance
      (Point.mk smaPt.x (smaPt.y + standardDeviation * stdDev),
       Point.mk smaPt.x smaPt.y,
       Point.mk smaPt.x (smaPt.y - standardDeviation * stdDev))
    let rows := (List.range sma.length).map row
    ⟨rows.map (fun r => r.1), rows.map (fun r => r.2.1),
     rows.map (fun r => r.2.2)⟩

/-! ## CTraderSDK connection lifecycle (src/js/trading.js lines 1126-1566) -/

/-- The connection status values passed to `updateConnectionStatus`. -/
inductive ConnStatus
  | connecting
  | connected
  | disconnected
  | error
  | failed
  deriving DecidableEq, Repr

/-- The connection-relevant SDK state: the connected flag, the reconnect
attempt counter, the last reported status, and whether a reconnect timer
is pending. -/
structure SDKState where
  isConnected : Bool
  reconnectAttempts : ℕ
  status : ConnStatus
  reconnectScheduled : Bool
  deriving DecidableEq, Repr

/-- The state right after a successful `connect` event
(src/js/trading.js lines 1129-1136): connected, attempt counter reset. -/
def connectedState : SDKState :=
  ⟨true, 0, .connected, false⟩

/-- `CTraderSDK.handleReconnection` (src/js/trading.js lines 1553-1566):
when the attempt counter has reached `MAX_RECONNECT_ATTEMPTS`, report
`failed` and schedule nothing; otherwise increment the counter and
schedule a reconnect via `setTimeout`. -/
def handleReconnection (s : SDKState) : SDKState :=
  if s.reconnectAttempts ≥ CONFIG.MAX_RECONNECT_ATTEMPTS then
    { s with status := .failed }
  else
    { s with reconnectAttempts := s.reconnectAttempts + 1,
             reconnectScheduled := true }

/-- The `disconnect` transport event handler
(src/js/trading.js lines 1139-1145): clear the connected flag, report
`disconnected`, then run `handleReconnection`. -/
def onDisconnect (s : SDKState) : SDKState :=
  handleReconnection { s with isConnected := false, status := .disconnected }

/-- The pending reconnect timer firing: `connect()` is entered, which
reports `connecting` (src/js/trading.js line 1174) and consumes the
pending timer. -/
def timerFires (s : SDKState) : SDKState :=
  if s.reconnectScheduled then
    { s with reconnectScheduled := false, status := .connecting }
  else s

/-- `n` consecutive transport-disconnect events starting from the
freshly-connected state, each preceded by the pending reconnect timer (if
any) firing and the resulting connection attempt failing to re-register. -/
def disconnectRun (n : ℕ) : SDKState :=
  (fun s => onDisconnect (timerFires s))^[n] connectedState

/-! ## TradingEngine.closePosition (src/js/trading.js lines 362-416) -/

/-- An open position as stored in the registry map. -/
structure Position where
  id : ℕ
  symbol : String
  volume : ℚ
  deriving DecidableEq, Repr

/-- The registry mutation performed by `TradingEngine.closePosition`:
an unknown id throws (registry unchanged), a failed transport result
leaves the registry unchanged; on success a missing or zero (falsy)
volume removes the position, otherwise the volume is reduced and the
position is removed in the same step when the remainder is `≤ 0`. -/
def closePositionStep (positions : List Position) (pid : ℕ)
    (volume : Option ℚ) (sdkSuccess : Bool) : List Position :=
  match positions.find? (fun p => p.id == pid) with
  | none => positions
  | some pos =>
    if sdkSuccess then
      if !truthyOpt volume then
        positions.filter (fun p => p.id != pid)
      else
        let newVolume := pos.volume - volume.getD 0
        if newVolume ≤ 0 then
          positions.filter (fun p => p.id != pid)
        else
          positions.map (fun p =>
            if p.id == pid then { p with volume := newVolume } else p)
    else positions

/-! ## Shared helper lemmas -/

lemma getD_map_range (f : ℕ → Point) (n k : ℕ) (hk : k < n) :
    ((List.range n).map f).getD k default = f k := by
  rw [List.getD_eq_getElem?_getD, List.getElem?_map, List.getElem?_range hk]
  rfl

lemma sum_map_range_rev (g : ℕ → ℚ) :
    ∀ (n i : ℕ), n ≤ i + 1 →
      ((List.range n).map (fun j => g (i - j))).sum =
        ((List.range n).map (fun t => g (i + 1 - n + t))).sum := by
  intro n
  induction n with
  | zero => intro i _; simp
  | succ m ih =>
    intro i h
    have hm : m ≤ i := by omega
    conv_lhs => rw [List.range_succ_eq_map]
    conv_rhs => rw [List.range_succ]
    rw [List.map_append, List.sum_append, List.map_cons, List.sum_cons,
        List.map_map]
    simp only [List.map_cons, List.map_nil, List.sum_cons, List.sum_nil,
      add_zero]
    have h1 : List.map ((fun j => g (i - j)) ∘ Nat.succ) (List.range m) =
        List.map (fun j => g (i - 1 - j)) (List.range m) := by
      refine List.map_congr_left (fun j _ => ?_)
      simp only [Function.comp]
      congr 1
      omega
    rw [h1]
    by_cases hi : i = 0
    · subst hi
      have : m = 0 := by omega
      subst this
      simp
    · rw [ih (i - 1) (by omega)]
      rw [show i - 1 + 1 - m = i + 1 - (m + 1) by omega,
          show i + 1 - (m + 1) + m = i by omega,
          show i - 0 = i by omega]
      ring

lemma take_map_sum (f : Point → ℚ) :
    ∀ (l : List Point) (n : ℕ), n ≤ l.length →
      ((l.take n).map f).sum =
        ((List.range n).map (fun t => f (l.getD t default))).sum := by
  intro l
  induction l with
  | nil => intro n hn; simp at hn; subst hn; simp
  | cons p ps ih =>
    intro n hn
    cases n with
    | zero => simp
    | succ m =>
      rw [List.take_succ_cons, List.map_cons, List.sum_cons,
          List.range_succ_eq_map, List.map_cons, List.sum_cons, List.map_map]
      simp only [List.getD_cons_zero]
      congr 1
      rw [ih m (by simpa using hn)]
      refine congrArg List.sum (List.map_congr_left (fun t _ => ?_))
      simp [Function.comp, List.getD_cons_succ]

lemma getD_drop (l : List Point) (m t : ℕ) :
    (l.drop m).getD t default = l.getD (m + t) default := by
  rw [List.getD_eq_getElem?_getD, List.getD_eq_getElem?_getD,
      List.getElem?_drop]

/-- The SMA inner loop over `data[i - j]` for `j < period`, at `i =
period - 1 + k`, sums exactly the trailing window `data[k .. k+period-1]`. -/
lemma smaWindowSum_eq_slice (data : List Point) (period k : ℕ)
    (h1 : 1 ≤ period) (h2 : period - 1 + k < data.length) :
    smaWindowSum data (period - 1 + k) period =
      (((data.drop k).take period).map Point.y).sum := by
  rw [take_map_sum Point.y (data.drop k) period
        (by rw [List.length_drop]; omega)]
  rw [smaWindowSum,
      sum_map_range_rev (fun idx => (data.getD idx default).y) period
        (period - 1 + k) (by omega)]
  refine congrArg List.sum (List.map_congr_left (fun t _ => ?_))
  rw [getD_drop]
  congr 2
  omega

lemma calculateSMA_length_eq (data : List Point) (period : ℕ)
    (h1 : 1 ≤ period) (h2 : period ≤ data.length) :
    (calculateSMA data period).length = data.length - period + 1 := by
  rw [calculateSMA, if_neg (by omega), List.length_map, List.length_range]
  omega

lemma calculateSMA_getD_eq (data : List Point) (period k : ℕ)
    (h1 : 1 ≤ period) (h2 : period ≤ data.length)
    (hk : k < data.length - period + 1) :
    (calculateSMA data period).getD k default =
      ⟨(data.getD (period - 1 + k) default).x,
       smaWindowSum data (period - 1 + k) period / period⟩ := by
  rw [calculateSMA, if_neg (by omega)]
  exact getD_map_range _ _ _ (by omega)

/-! ## Claim theorems -/

/-- C4: `calculateSMA(period)` returns an empty series when the series has
fewer than `period` points; otherwise it returns one value per index from
`period - 1` to the end of the series, each equal to the arithmetic mean
of the trailing `period` points; for the series `[1,2,3,4,5]` and period 3
the result values are `[2,3,4]`. -/
theorem calculateSMA_spec :
    (∀ (data : List Point) (period : ℕ), data.length < period →
      calculateSMA data period = []) ∧
    (∀ (data : List Point) (period : ℕ), 1 ≤ period → period ≤ data.length →
      (calculateSMA data period).length = data.length - period + 1 ∧
      ∀ k, k < (calculateSMA data period).length →
        (calculateSMA data period).getD k default =
          ⟨(data.getD (period - 1 + k) default).x,
           (((data.drop k).take period).map Point.y).sum / period⟩) ∧
    (calculateSMA [⟨0,1⟩, ⟨1,2⟩, ⟨2,3⟩, ⟨3,4⟩, ⟨4,5⟩] 3).map Point.y =
      [2, 3, 4] := by
  refine ⟨fun data period h => by rw [calculateSMA, if_pos h], ?_, ?_⟩
  · intro data period h1 h2
    refine ⟨calculateSMA_length_eq data period h1 h2, ?_⟩
    intro k hk
    rw [calculateSMA_length_eq data period h1 h2] at hk
    rw [calculateSMA_getD_eq data period k h1 h2 hk,
        smaWindowSum_eq_slice data period k h1 (by omega)]
  · simp only [calculateSMA, smaWindowSum, List.length_cons, List.length_nil]
    norm_num [List.range_succ]

/-- Witness for C4 at a concrete series and period: the series
`[1,2,3,4,5]` with period 3 has three SMA points, and the first one is
the mean `2` of the window `[1,2,3]`. -/
theorem calculateSMA_spec_witness :
    (1 ≤ 3 ∧ 3 ≤ ([⟨0,1⟩, ⟨1,2⟩, ⟨2,3⟩, ⟨3,4⟩, ⟨4,5⟩] : List Point).length) ∧
    (calculateSMA [⟨0,1⟩, ⟨1,2⟩, ⟨2,3⟩, ⟨3,4⟩, ⟨4,5⟩] 3).length = 3 := by
  refine ⟨⟨by omega, by simp⟩, ?_⟩
  exact (calculateSMA_spec.2.1 [⟨0,1⟩, ⟨1,2⟩, ⟨2,3⟩, ⟨3,4⟩, ⟨4,5⟩] 3
    (by omega) (by simp)).1

lemma emaTail_length (k prev : ℚ) :
    ∀ l : List Point, (emaTail k prev l).length = l.length := by
  intro l
  induction l generalizing prev with
  | nil => rfl
  | cons p ps ih => simp [emaTail, ih]

lemma emaTail_getD_succ (k : ℚ) :
    ∀ (l : List Point) (prev : ℚ) (s : ℕ), s + 1 < l.length →
      (emaTail k prev l).getD (s + 1) default =
        ⟨(l.getD (s + 1) default).x,
         emaStep k ((emaTail k prev l).getD s default).y
           ((l.getD (s + 1) default).y)⟩ := by
  intro l
  induction l with
  | nil => intro prev s h; simp at h
  | cons p ps ih =>
    intro prev s h
    cases s with
    | zero =>
      cases ps with
      | nil => simp at h
      | cons r rs => rfl
    | succ m =>
      have hm : m + 1 < ps.length := by simpa using h
      show (emaTail k (emaStep k prev p.y) ps).getD (m + 1) default = _
      rw [ih (emaStep k prev p.y) m hm]
      rfl

/-- C5: `calculateEMA(period)` returns an empty series for a series
shorter than `period`; otherwise its first value (at data index
`period - 1`) equals `SMA(period)` at that index, and every subsequent
value satisfies `ema[i] = (price[i] - ema[i-1]) * k + ema[i-1]` with
`k = 2 / (period + 1)`. -/
theorem calculateEMA_spec :
    (∀ (data : List Point) (period : ℕ), data.length < period →
      calculateEMA data period = []) ∧
    (∀ (data : List Point) (period : ℕ), 1 ≤ period → period ≤ data.length →
      (calculateEMA data period).length = data.length - period + 1 ∧
      (calculateEMA data period).getD 0 default =
        (calculateSMA data period).getD 0 default ∧
      ∀ t, t + 1 < (calculateEMA data period).length →
        ((calculateEMA data period).getD (t + 1) default).y =
          ((data.getD (period + t) default).y -
             ((calculateEMA data period).getD t default).y) *
            (2 / ((period : ℚ) + 1)) +
          ((calculateEMA data period).getD t default).y) := by
  constructor
  · intro data period h
    rw [calculateEMA, if_pos h]
  · intro data period h1 h2
    have hne : ¬ data.length < period := by omega
    refine ⟨?_, ?_, ?_⟩
    · rw [calculateEMA, if_neg hne]
      simp only [List.length_cons, emaTail_length, List.length_drop]
    · rw [calculateEMA, if_neg hne,
          calculateSMA_getD_eq data period 0 h1 h2 (by omega),
          smaWindowSum_eq_slice data period 0 h1 (by omega)]
      rfl
    · intro t ht
      rw [calculateEMA, if_neg hne] at ht ⊢
      simp only [List.length_cons, emaTail_length, List.length_drop] at ht
      cases t with
      | zero =>
        have hd : 0 < (data.drop period).length := by
          rw [List.length_drop]; omega
        rcases hrest : data.drop period with _ | ⟨r, rs⟩
        · rw [hrest] at hd; simp at hd
        · have hidx : data.getD (period + 0) default = r := by
            rw [← getD_drop data period 0, hrest]; rfl
          rw [hidx]
          rfl
      | succ m =>
        have hm : m + 1 < (data.drop period).length := by
          rw [List.length_drop]; omega
        show ((emaTail _ _ (data.drop period)).getD (m + 1) default).y = _
        rw [emaTail_getD_succ _ (data.drop period) _ m hm]
        have hidx : data.getD (period + (m + 1)) default =
            (data.drop period).getD (m + 1) default := by
          rw [getD_drop]
        rw [hidx]
        rfl

/-- Witness for C5 at a concrete series: for `[1,2,3,4,5]` with period 3
the EMA and SMA agree at their first defined index. -/
theorem calculateEMA_spec_witness :
    (1 ≤ 3 ∧ 3 ≤ ([⟨0,1⟩, ⟨1,2⟩, ⟨2,3⟩, ⟨3,4⟩, ⟨4,5⟩] : List Point).length) ∧
    (calculateEMA [⟨0,1⟩, ⟨1,2⟩, ⟨2,3⟩, ⟨3,4⟩, ⟨4,5⟩] 3).getD 0 default =
      (calculateSMA [⟨0,1⟩, ⟨1,2⟩, ⟨2,3⟩, ⟨3,4⟩, ⟨4,5⟩] 3).getD 0 default := by
  refine ⟨⟨by omega, by simp⟩, ?_⟩
  exact (calculateEMA_spec.2 [⟨0,1⟩, ⟨1,2⟩, ⟨2,3⟩, ⟨3,4⟩, ⟨4,5⟩] 3
    (by omega) (by simp)).2.1

lemma map_getD_range_self (l : List Point) :
    (List.range l.length).map (fun i => l.getD i default) = l := by
  refine List.ext_getElem (by simp) ?_
  intro i h1 h2
  simp only [List.getElem_map, List.getElem_range]
  rw [List.getD_eq_getElem?_getD, List.getElem?_eq_getElem h2]
  rfl

/-- The Bollinger squared-deviation loop over `data[dataIndex - j]` for
`j < period`, at `dataIndex = k + period - 1`, sums the squared deviations
over the trailing window `data[k .. k+period-1]`. -/
lemma bbWindowSqSum_eq_slice (data : List Point) (period k : ℕ) (m : ℚ)
    (h1 : 1 ≤ period) (h2 : k + period - 1 < data.length) :
    bbWindowSqSum data (k + period - 1) period m =
      (((data.drop k).take period).map
        (fun p => (p.y - m) * (p.y - m))).sum := by
  rw [take_map_sum (fun p => (p.y - m) * (p.y - m)) (data.drop k) period
        (by rw [List.length_drop]; omega)]
  rw [bbWindowSqSum,
      sum_map_range_rev
        (fun idx => ((data.getD idx default).y - m) *
                    ((data.getD idx default).y - m)) period
        (k + period - 1) (by omega)]
  refine congrArg List.sum (List.map_congr_left (fun t _ => ?_))
  rw [getD_drop, show k + period - 1 + 1 - period + t = k + t by omega]

lemma bb_bands_getD (sqrtFn : ℚ → ℚ) (data : List Point) (period : ℕ)
    (stdDev : ℚ) (k : ℕ)
    (hk : k < (calculateSMA data period).length) :
    (calculateBollingerBands sqrtFn data period stdDev).upper.getD k default =
      ⟨((calculateSMA data period).getD k default).x,
       ((calculateSMA data period).getD k default).y +
         sqrtFn (bbWindowSqSum data (k + period - 1) period
           ((calculateSMA data period).getD k default).y / period) * stdDev⟩ ∧
    (calculateBollingerBands sqrtFn data period stdDev).middle.getD k default =
      (calculateSMA data period).getD k default ∧
    (calculateBollingerBands sqrtFn data period stdDev).lower.getD k default =
      ⟨((calculateSMA data period).getD k default).x,
       ((calculateSMA data period).getD k default).y -
         sqrtFn (bbWindowSqSum data (k + period - 1) period
           ((calculateSMA data period).getD k default).y / period) * stdDev⟩ := by
  have hn : ¬ (calculateSMA data period).length = 0 := by omega
  simp only [calculateBollingerBands, if_neg hn, List.map_map]
  refine ⟨?_, ?_, ?_⟩ <;>
    exact getD_map_range _ _ _ hk

lemma bb_length_upper (sqrtFn : ℚ → ℚ) (data : List Point) (period : ℕ)
    (stdDev : ℚ) :
    (calculateBollingerBands sqrtFn data period stdDev).upper.length =
      (calculateSMA data period).length := by
  by_cases hn : (calculateSMA data period).length = 0
  · simp [calculateBollingerBands, hn]
  · simp [calculateBollingerBands, hn]

/-- C6: `calculateBollingerBands` computes the middle band as
`SMA(period)`; the deviation at each index is `sqrt` of the population
variance of the same trailing window (sum of squared deviations divided
by `period`, not `period - 1`), the upper and lower bands are middle plus
and minus `deviation * k`; and for every index the bands satisfy
`upper[i] - middle[i] = middle[i] - lower[i]` (exactly, in rational
arithmetic). -/
theorem calculateBollingerBands_spec :
    ∀ (sqrtFn : ℚ → ℚ) (data : List Point) (period : ℕ) (stdDev : ℚ),
      1 ≤ period →
      (calculateBollingerBands sqrtFn data period stdDev).middle =
        calculateSMA data period ∧
      (∀ k, k < (calculateBollingerBands sqrtFn data period stdDev).upper.length →
        ((calculateBollingerBands sqrtFn data period stdDev).upper.getD k default).y =
          ((calculateSMA data period).getD k default).y +
            sqrtFn ((((data.drop k).take period).map
              (fun p =>
                (p.y - ((calculateSMA data period).getD k default).y) *
                (p.y - ((calculateSMA data period).getD k default).y))).sum /
              period) * stdDev ∧
        ((calculateBollingerBands sqrtFn data period stdDev).lower.getD k default).y =
          ((calculateSMA data period).getD k default).y -
            sqrtFn ((((data.drop k).take period).map
              (fun p =>
                (p.y - ((calculateSMA data period).getD k default).y) *
                (p.y - ((calculateSMA data period).getD k default).y))).sum /
              period) * stdDev) ∧
      (∀ k, k < (calculateBollingerBands sqrtFn data period stdDev).upper.length →
        ((calculateBollingerBands sqrtFn data period stdDev).upper.getD k default).y -
          ((calculateBollingerBands sqrtFn data period stdDev).middle.getD k default).y =
        ((calculateBollingerBands sqrtFn data period stdDev).middle.getD k default).y -
          ((calculateBollingerBands sqrtFn data period stdDev).lower.getD k default).y) := by
  intro sqrtFn data period stdDev h1
  have hwin : ∀ k, k < (calculateSMA data period).length →
      k + period - 1 < data.length := by
    intro k hk
    by_cases hlt : data.length < period
    · rw [calculateSMA, if_pos hlt] at hk
      simp at hk
    · rw [calculateSMA_length_eq data period h1 (by omega)] at hk
      omega
  refine ⟨?_, ?_, ?_⟩
  · by_cases hn : (calculateSMA data period).length = 0
    · rw [List.length_eq_zero] at hn
      simp [calculateBollingerBands, hn]
    · simp only [calculateBollingerBands, if_neg hn, List.map_map]
      exact map_getD_range_self (calculateSMA data period)
  · intro k hk
    rw [bb_length_upper] at hk
    obtain ⟨hu, _, hl⟩ := bb_bands_getD sqrtFn data period stdDev k hk
    constructor
    · rw [hu]
      rw [bbWindowSqSum_eq_slice data period k _ h1 (hwin k hk)]
    · rw [hl]
      rw [bbWindowSqSum_eq_slice data period k _ h1 (hwin k hk)]
  · intro k hk
    rw [bb_length_upper] at hk
    obtain ⟨hu, hm, hl⟩ := bb_bands_getD sqrtFn data period stdDev k hk
    rw [hu, hm, hl]
    ring

/-- Witness for C6 at a concrete instance: with the trivial square root
stub, the series `[1,2,3,4,5]`, period 3 and band multiplier 2, the
middle band coincides with the SMA. -/
theorem calculateBollingerBands_spec_witness :
    (1 : ℕ) ≤ 3 ∧
    (calculateBollingerBands (fun _ => 0)
        [⟨0,1⟩, ⟨1,2⟩, ⟨2,3⟩, ⟨3,4⟩, ⟨4,5⟩] 3 2).middle =
      calculateSMA [⟨0,1⟩, ⟨1,2⟩, ⟨2,3⟩, ⟨3,4⟩, ⟨4,5⟩] 3 := by
  refine ⟨by omega, ?_⟩
  exact (calculateBollingerBands_spec (fun _ => 0)
    [⟨0,1⟩, ⟨1,2⟩, ⟨2,3⟩, ⟨3,4⟩, ⟨4,5⟩] 3 2 (by omega)).1

lemma updatePriceData_length_le (st : ChartState) (q : Quote) (now : ℤ)
    (rand : ℚ) (h : st.priceData.length ≤ CONFIG.MAX_CHART_POINTS) :
    (updatePriceData st q now rand).priceData.length ≤
      CONFIG.MAX_CHART_POINTS := by
  rw [updatePriceData]
  by_cases hs : q.symbol ≠ st.currentSymbol
  · rw [if_pos hs]; exact h
  · rw [if_neg hs]
    by_cases hlen :
        (st.priceData ++ [Point.mk now ((q.bid + q.ask) / 2)]).length >
          CONFIG.MAX_CHART_POINTS
    · rw [if_pos hlen]
      simp only [List.length_tail, List.length_append, List.length_cons,
        List.length_nil] at hlen ⊢
      omega
    · rw [if_neg hlen]
      simp only [List.length_append, List.length_cons, List.length_nil] at hlen ⊢
      omega

/-- C2: starting from a state whose price series is within the bound,
every update keeps `length(priceData) ≤ MAX_CHART_POINTS (1000)`, and this
holds after every update of any quote sequence; each matching update
appends one point at the tail, and when the bound would be exceeded it
evicts from the head, leaving the length exactly at the bound. -/
theorem chart_series_bounded :
    (∀ (st : ChartState) (q : Quote) (now : ℤ) (rand : ℚ),
      st.priceData.length ≤ CONFIG.MAX_CHART_POINTS →
      (updatePriceData st q now rand).priceData.length ≤
        CONFIG.MAX_CHART_POINTS) ∧
    (∀ (st : ChartState) (events : List (Quote × ℤ × ℚ)),
      st.priceData.length ≤ CONFIG.MAX_CHART_POINTS →
      (processQuotes st events).priceData.length ≤ CONFIG.MAX_CHART_POINTS) ∧
    (∀ (st : ChartState) (q : Quote) (now : ℤ) (rand : ℚ),
      q.symbol = st.currentSymbol →
      st.priceData.length < CONFIG.MAX_CHART_POINTS →
      (updatePriceData st q now rand).priceData =
        st.priceData ++ [Point.mk now ((q.bid + q.ask) / 2)]) ∧
    (∀ (st : ChartState) (q : Quote) (now : ℤ) (rand : ℚ),
      q.symbol = st.currentSymbol →
      st.priceData.length = CONFIG.MAX_CHART_POINTS →
      (updatePriceData st q now rand).priceData =
        (st.priceData ++ [Point.mk now ((q.bid + q.ask) / 2)]).tail ∧
      (updatePriceData st q now rand).priceData.length =
        CONFIG.MAX_CHART_POINTS) := by
  refine ⟨updatePriceData_length_le, ?_, ?_, ?_⟩
  · intro st events
    induction events generalizing st with
    | nil => intro h; exact h
    | cons e es ih =>
      intro h
      exact ih _ (updatePriceData_length_le st e.1 e.2.1 e.2.2 h)
  · intro st q now rand hs hlen
    rw [updatePriceData, if_neg (by simp [hs]),
        if_neg (by simp only [List.length_append, List.length_cons,
          List.length_nil]; omega)]
  · intro st q now rand hs hlen
    rw [updatePriceData, if_neg (by simp [hs]),
        if_pos (by simp only [List.length_append, List.length_cons,
          List.length_nil]; omega)]
    refine ⟨rfl, ?_⟩
    simp only [List.length_tail, List.length_append, List.length_cons,
      List.length_nil]
    omega

/-- Witness for C2 at a concrete state and stream: from an empty EURUSD
chart, processing two quotes leaves the price series within the bound. -/
theorem chart_series_bounded_witness :
    (ChartState.mk "EURUSD" [] []).priceData.length ≤
      CONFIG.MAX_CHART_POINTS ∧
    (processQuotes (ChartState.mk "EURUSD" [] [])
      [(⟨"EURUSD", 1, 2⟩, 0, 0), (⟨"EURUSD", 2, 3⟩, 1, 0)]).priceData.length ≤
      CONFIG.MAX_CHART_POINTS := by
  refine ⟨by simp [CONFIG.MAX_CHART_POINTS], ?_⟩
  exact chart_series_bounded.2.1 (ChartState.mk "EURUSD" [] [])
    [(⟨"EURUSD", 1, 2⟩, 0, 0), (⟨"EURUSD", 2, 3⟩, 1, 0)]
    (by simp [CONFIG.MAX_CHART_POINTS])

lemma updatePriceData_length_eq (st : ChartState) (q : Quote) (now : ℤ)
    (rand : ℚ) (h : st.priceData.length = st.volumeData.length) :
    (updatePriceData st q now rand).priceData.length =
      (updatePriceData st q now rand).volumeData.length := by
  rw [updatePriceData]
  by_cases hs : q.symbol ≠ st.currentSymbol
  · rw [if_pos hs]; exact h
  · rw [if_neg hs]
    by_cases hlen :
        (st.priceData ++ [Point.mk now ((q.bid + q.ask) / 2)]).length >
          CONFIG.MAX_CHART_POINTS
    · rw [if_pos hlen]
      simp only [List.length_tail, List.length_append, List.length_cons,
        List.length_nil]
      omega
    · rw [if_neg hlen]
      simp only [List.length_append, List.length_cons, List.length_nil]
      omega

/-- C10: each update appends one point to the price and volume series
together and evicts the head of both together, so from a state where the
two series have equal length, they have equal length after every quote
processed by `updatePriceData`. -/
theorem chart_series_equal_length :
    (∀ (st : ChartState) (q : Quote) (now : ℤ) (rand : ℚ),
      st.priceData.length = st.volumeData.length →
      (updatePriceData st q now rand).priceData.length =
        (updatePriceData st q now rand).volumeData.length) ∧
    (∀ (st : ChartState) (events : List (Quote × ℤ × ℚ)),
      st.priceData.length = st.volumeData.length →
      (processQuotes st events).priceData.length =
        (processQuotes st events).volumeData.length) := by
  refine ⟨updatePriceData_length_eq, ?_⟩
  intro st events
  induction events generalizing st with
  | nil => intro h; exact h
  | cons e es ih =>
    intro h
    exact ih _ (updatePriceData_length_eq st e.1 e.2.1 e.2.2 h)

/-- Witness for C10 at a concrete state and stream: from an empty EURUSD
chart, processing two quotes leaves the two series with equal lengths. -/
theorem chart_series_equal_length_witness :
    (ChartState.mk "EURUSD" [] []).priceData.length =
      (ChartState.mk "EURUSD" [] []).volumeData.length ∧
    (processQuotes (ChartState.mk "EURUSD" [] [])
        [(⟨"EURUSD", 1, 2⟩, 0, 0), (⟨"GBPUSD", 2, 3⟩, 1, 0)]).priceData.length =
      (processQuotes (ChartState.mk "EURUSD" [] [])
        [(⟨"EURUSD", 1, 2⟩, 0, 0), (⟨"GBPUSD", 2, 3⟩, 1, 0)]).volumeData.length := by
  refine ⟨rfl, ?_⟩
  exact chart_series_equal_length.2 (ChartState.mk "EURUSD" [] [])
    [(⟨"EURUSD", 1, 2⟩, 0, 0), (⟨"GBPUSD", 2, 3⟩, 1, 0)] rfl

/-- After the run reaches the failed state with no pending reconnect
timer, one more disconnect cycle leaves the state unchanged. -/
lemma disconnect_cycle_fixed :
    onDisconnect (timerFires ⟨false, 5, .failed, false⟩) =
      (⟨false, 5, .failed, false⟩ : SDKState) := by
  decide

lemma disconnectRun_fixed :
    ∀ m, disconnectRun (6 + m) = ⟨false, 5, .failed, false⟩ := by
  intro m
  induction m with
  | zero => decide
  | succ p ih =>
    have : 6 + (p + 1) = (6 + p) + 1 := by omega
    rw [this, disconnectRun, Function.iterate_succ_apply',
        ← disconnectRun, ih, disconnect_cycle_fixed]

/-- C3 counterexample: after exactly `maxReconnectAttempts` (5)
consecutive transport-disconnect events from the connected state, the
code has not reached the failed state (the status is `disconnected`), and
a further automatic reconnection attempt is still scheduled. -/
theorem reconnect_five_disconnects_not_failed :
    (disconnectRun 5).status ≠ ConnStatus.failed ∧
    (disconnectRun 5).reconnectScheduled = true ∧
    (disconnectRun 5).reconnectAttempts = CONFIG.MAX_RECONNECT_ATTEMPTS := by
  decide

/-- C3 (amended): starting connected with the attempt counter at zero, it
takes `maxReconnectAttempts + 1` (6) consecutive transport-disconnect
events for the state to become failed; from then on no reconnection is
scheduled and every further disconnect leaves the state failed with no
Connecting transition pending. -/
theorem reconnect_failed_after_max_plus_one :
    (disconnectRun (CONFIG.MAX_RECONNECT_ATTEMPTS + 1)).status =
      ConnStatus.failed ∧
    (disconnectRun (CONFIG.MAX_RECONNECT_ATTEMPTS + 1)).reconnectScheduled =
      false ∧
    ∀ m, CONFIG.MAX_RECONNECT_ATTEMPTS + 1 ≤ m →
      (disconnectRun m).status = ConnStatus.failed ∧
      (disconnectRun m).reconnectScheduled = false := by
  refine ⟨by decide, by decide, ?_⟩
  intro m hm
  have : m = 6 + (m - 6) := by
    simp only [CONFIG.MAX_RECONNECT_ATTEMPTS] at hm
    omega
  rw [this, disconnectRun_fixed]
  exact ⟨rfl, rfl⟩

/-- Witness for C3 (amended) at a concrete count: after 8 consecutive
disconnect events the state is failed with nothing scheduled. -/
theorem reconnect_failed_after_max_plus_one_witness :
    CONFIG.MAX_RECONNECT_ATTEMPTS + 1 ≤ 8 ∧
    (disconnectRun 8).status = ConnStatus.failed ∧
    (disconnectRun 8).reconnectScheduled = false := by
  refine ⟨by decide, ?_, ?_⟩
  · exact (reconnect_failed_after_max_plus_one.2.2 8 (by decide)).1
  · exact (reconnect_failed_after_max_plus_one.2.2 8 (by decide)).2

/-- The registry update applied by a partial close preserves ids and
updates the volume of the first position matching `pid` as seen by
`find?`. -/
lemma find?_map_update (pid : ℕ) (g : Position → Position)
    (hg : ∀ p, (g p).id = p.id) :
    ∀ (ps : List Position) (pos : Position),
      ps.find? (fun p => p.id == pid) = some pos →
      (ps.map (fun p => if p.id == pid then g p else p)).find?
        (fun p => p.id == pid) = some (g pos) := by
  intro ps
  induction ps with
  | nil => intro pos h; simp at h
  | cons q qs ih =>
    intro pos h
    by_cases hq : q.id = pid
    · have hfq : List.find? (fun p => p.id == pid) (q :: qs) = some q :=
        List.find?_cons_of_pos qs (by simp [hq])
      rw [hfq] at h
      obtain rfl : pos = q := (Option.some.inj h).symm
      rw [List.map_cons, if_pos (show (pos.id == pid) = true by simp [hq])]
      exact List.find?_cons_of_pos _ (by simp [hg, hq])
    · have hfq : List.find? (fun p => p.id == pid) (q :: qs) =
          List.find? (fun p => p.id == pid) qs :=
        List.find?_cons_of_neg qs (by simp [hq])
      rw [hfq] at h
      rw [List.map_cons, if_neg (show ¬ (q.id == pid) = true by simp [hq])]
      rw [List.find?_cons_of_neg
            (qs.map (fun p => if p.id == pid then g p else p))
            (by simp [hq])]
      exact ih pos h

/-- C9: on a successful close, omitting the volume removes the position
entirely; a volume strictly between zero and the position volume reduces
the recorded volume and leaves the position open; and whenever every
position in the registry has positive volume, that invariant still holds
after any close (a remainder of zero or below is removed in the same
step). -/
theorem closePosition_registry_spec :
    (∀ (ps : List Position) (pid : ℕ) (pos : Position),
      ps.find? (fun p => p.id == pid) = some pos →
      ∀ p, p ∈ closePositionStep ps pid none true → p.id ≠ pid) ∧
    (∀ (ps : List Position) (pid : ℕ) (pos : Position) (v : ℚ),
      ps.find? (fun p => p.id == pid) = some pos →
      0 < v → v < pos.volume →
      (closePositionStep ps pid (some v) true).find?
        (fun p => p.id == pid) = some { pos with volume := pos.volume - v }) ∧
    (∀ (ps : List Position) (pid : ℕ) (volume : Option ℚ) (s : Bool),
      (∀ p, p ∈ ps → 0 < p.volume) →
      ∀ p, p ∈ closePositionStep ps pid volume s → 0 < p.volume) := by
  refine ⟨?_, ?_, ?_⟩
  · intro ps pid pos hfind p hp
    rw [closePositionStep, hfind] at hp
    simp only [truthyOpt, Option.getD_none, bne_self_eq_false,
      Bool.not_false, if_true] at hp
    have := List.of_mem_filter hp
    simpa using this
  · intro ps pid pos v hfind hv hvlt
    have h1 : ¬ ((!truthyOpt (some v)) = true) := by
      simp [truthyOpt]
      exact ne_of_gt hv
    have h2 : ¬ (pos.volume - v ≤ 0) := by
      intro hle
      linarith
    rw [closePositionStep, hfind]
    simp only [if_neg h1, if_neg h2, Option.getD_some, if_pos]
    exact find?_map_update pid
      (fun p => { p with volume := pos.volume - v }) (fun _ => rfl) ps pos hfind
  · intro ps pid volume s hall p hp
    rw [closePositionStep] at hp
    dsimp only at hp
    split at hp
    · exact hall p hp
    · split at hp
      · split at hp
        · exact hall p (List.mem_of_mem_filter hp)
        · split at hp
          · exact hall p (List.mem_of_mem_filter hp)
          · next hle =>
            rcases List.mem_map.mp hp with ⟨q, hq, rfl⟩
            by_cases hqid : (q.id == pid) = true
            · rw [if_pos hqid]
              exact lt_of_not_le hle
            · rw [if_neg hqid]
              exact hall q hq
      · exact hall p hp


/-- Witness for C9 at a concrete registry: closing 0.05 lots of a 0.1-lot
position leaves it open with volume 0.05, and closing without a volume
removes it. -/
theorem closePosition_registry_spec_witness :
    ([Position.mk 1 "EURUSD" (1/10)].find? (fun p => p.id == 1) =
      some (Position.mk 1 "EURUSD" (1/10)) ∧
     (0 : ℚ) < 1/20 ∧ (1/20 : ℚ) < (Position.mk 1 "EURUSD" (1/10)).volume) ∧
    (closePositionStep [Position.mk 1 "EURUSD" (1/10)] 1 (some (1/20))
        true).find? (fun p => p.id == 1) =
      some (Position.mk 1 "EURUSD" (1/10 - 1/20)) := by
  refine ⟨⟨rfl, by norm_num, by norm_num⟩, ?_⟩
  exact closePosition_registry_spec.2.1 [Position.mk 1 "EURUSD" (1/10)] 1
    (Position.mk 1 "EURUSD" (1/10)) (1/20) rfl (by norm_num) (by norm_num)

lemma ratToFixed2_ten : ratToFixed2 10 = "10.00" := by
  unfold ratToFixed2
  rw [show (10 : ℚ) * 100 = ((1000 : ℤ) : ℚ) by norm_num, round_intCast]
  rfl

lemma riskPercent_example :
    riskPercentOf ⟨10000, 10000⟩
      ⟨"EURUSD", .buy, 1, some (109/100), none, some (11/10)⟩ = 10 := by
  unfold riskPercentOf riskAmountOf
  simp only [Option.getD_some]
  rw [show (11/10 : ℚ) - 109/100 = 1/100 by norm_num,
      abs_of_pos (by norm_num)]
  norm_num

lemma riskAmount_example :
    riskAmountOf ⟨"EURUSD", .buy, 1, some (109/100), none, some (11/10)⟩ =
      1000 := by
  unfold riskAmountOf
  simp only [Option.getD_some]
  rw [show (11/10 : ℚ) - 109/100 = 1/100 by norm_num,
      abs_of_pos (by norm_num)]
  norm_num

/-- C1: `RiskManager.checkTrade` runs its checks in the fixed order
(1) open-position count, (2) required margin, (3) per-trade risk,
returning on the first failing check: a full position count wins over
everything else, and a margin shortfall wins over any risk violation; and
on the spec example (balance 10000, maxRiskPercent 5, entry 1.1000,
stop-loss 1.0900, volume 1.0, contract size 100000) it computes
riskAmount 1000 and riskPercent 10.00%, returning allowed = false with a
reason mentioning "10.00%" and "5%". -/
theorem riskManager_checkTrade_spec :
    (∀ (cnt : ℕ) (account : Option Account) (params : TradeParams),
      cnt ≥ CONFIG.MAX_POSITIONS →
      checkTrade cnt account params =
        ⟨false, some "Maximum positions limit reached (10)"⟩) ∧
    (∀ (cnt : ℕ) (a : Account) (params : TradeParams) (p : ℚ),
      cnt < CONFIG.MAX_POSITIONS →
      params.currentPrice = some p →
      calculateMargin params.volume p > a.freeMargin →
      checkTrade cnt (some a) params = ⟨false, some "Insufficient margin"⟩) ∧
    (riskAmountOf ⟨"EURUSD", .buy, 1, some (109/100), none, some (11/10)⟩ =
      1000 ∧
     riskPercentOf ⟨10000, 10000⟩
       ⟨"EURUSD", .buy, 1, some (109/100), none, some (11/10)⟩ = 10 ∧
     checkTrade 0 (some ⟨10000, 10000⟩)
       ⟨"EURUSD", .buy, 1, some (109/100), none, some (11/10)⟩ =
       ⟨false, some "Risk too high (10.00% > 5%)"⟩ ∧
     strMentions "Risk too high (10.00% > 5%)" "10.00%" = true ∧
     strMentions "Risk too high (10.00% > 5%)" "5%" = true) := by
  refine ⟨?_, ?_, ?_⟩
  · intro cnt account params h
    rw [checkTrade.eq_def, if_pos h]
    rfl
  · intro cnt a params p hcnt hcp hm
    rw [checkTrade.eq_def, if_neg (by omega)]
    simp only []
    rw [if_pos (by rw [hcp]; simpa using hm)]
  · refine ⟨riskAmount_example, riskPercent_example, ?_, by decide, by decide⟩
    rw [checkTrade.eq_def, if_neg (by simp [CONFIG.MAX_POSITIONS])]
    simp only [Option.any_some]
    rw [if_neg (by
      simp only [decide_eq_true_eq, calculateMargin]
      norm_num)]
    rw [if_pos (by
      simp only [truthyOpt, Option.getD_some, Bool.and_eq_true, bne_iff_ne,
        ne_eq]
      norm_num)]
    simp only [riskPercent_example]
    rw [if_pos (by norm_num [CONFIG.MAX_RISK_PERCENT])]
    rw [ratToFixed2_ten]
    rfl

/-- Witness for C1 at concrete inputs: with the position limit reached the
check rejects with the limit reason, and with a margin shortfall it
rejects with the margin reason. -/
theorem riskManager_checkTrade_spec_witness :
    ((10 : ℕ) ≥ CONFIG.MAX_POSITIONS ∧
     checkTrade 10 none ⟨"EURUSD", .buy, 1, none, none, none⟩ =
       ⟨false, some "Maximum positions limit reached (10)"⟩) ∧
    ((0 : ℕ) < CONFIG.MAX_POSITIONS ∧
     checkTrade 0 (some ⟨100, 100⟩)
       ⟨"EURUSD", .buy, 1, none, none, some (11/10)⟩ =
       ⟨false, some "Insufficient margin"⟩) := by
  constructor
  · refine ⟨by decide, ?_⟩
    exact riskManager_checkTrade_spec.1 10 none
      ⟨"EURUSD", .buy, 1, none, none, none⟩ (by decide)
  · refine ⟨by decide, ?_⟩
    exact riskManager_checkTrade_spec.2.1 0 ⟨100, 100⟩
      ⟨"EURUSD", .buy, 1, none, none, some (11/10)⟩ (11/10) (by decide) rfl
      (by simp [calculateMargin]; norm_num)


lemma jsNumToString_min : jsNumToString CONFIG.MIN_VOLUME = "0.01" := by
  unfold jsNumToString CONFIG.MIN_VOLUME
  rw [if_neg (by norm_num)]
  unfold ratToFixed2
  rw [show (1/100 : ℚ) * 100 = ((1 : ℤ) : ℚ) by norm_num, round_intCast]
  rfl

lemma jsNumToString_max : jsNumToString CONFIG.MAX_VOLUME = "100" := by
  unfold jsNumToString CONFIG.MAX_VOLUME
  rw [if_pos (by norm_num)]
  rfl

/-- C7: a trade request whose volume is below `MIN_VOLUME` (0.01) or
above `MAX_VOLUME` (100.0) makes `executeTrade` return a failure carrying
the validation error messages, with zero transport calls (the
`createMarketOrder` call is never reached). -/
theorem executeTrade_volume_validation :
    ∀ (env : ExecEnv) (params : TradeParams),
      params.volume < CONFIG.MIN_VOLUME ∨ params.volume > CONFIG.MAX_VOLUME →
      (executeTrade env params).transportCalls = 0 ∧
      (executeTrade env params).result.success = false ∧
      (executeTrade env params).result.error =
        some (String.intercalate ", " (validateTrade params).errors) ∧
      (validateTrade params).isValid = false ∧
      ("Volume below minimum (0.01)" ∈ (validateTrade params).errors ∨
       "Volume above maximum (100)" ∈ (validateTrade params).errors) := by
  intro env params h
  have hmem : "Volume below minimum (0.01)" ∈ (validateTrade params).errors ∨
      "Volume above maximum (100)" ∈ (validateTrade params).errors := by
    rcases h with h | h
    · left
      simp only [validateTrade, jsNumToString_min, jsNumToString_max]
      simp [List.mem_append, h]
    · right
      simp only [validateTrade, jsNumToString_min, jsNumToString_max]
      simp [List.mem_append, h]
  have hne : (validateTrade params).errors ≠ [] := by
    intro hnil
    rcases hmem with hm | hm <;> rw [hnil] at hm <;> simp at hm
  have hval : (validateTrade params).isValid = false := by
    have hiv : (validateTrade params).isValid =
        (validateTrade params).errors.isEmpty := rfl
    rw [hiv]
    rcases hx : (validateTrade params).errors with _ | ⟨e, es⟩
    · exact absurd hx hne
    · rfl
  have hexec : executeTrade env params =
      ⟨⟨false, some (String.intercalate ", " (validateTrade params).errors)⟩,
       0, 0, 0⟩ := by
    simp [executeTrade, hval]
  exact ⟨by rw [hexec], by rw [hexec], by rw [hexec], hval, hmem⟩

/-- Witness for C7 at a concrete request: volume 0.001 is below the
minimum, the call fails and makes no transport call. -/
theorem executeTrade_volume_validation_witness :
    ((1/1000 : ℚ) < CONFIG.MIN_VOLUME ∨ (1/1000 : ℚ) > CONFIG.MAX_VOLUME) ∧
    (executeTrade ⟨0, none, true, true, ⟨true, none⟩, ⟨true, none⟩⟩
      ⟨"EURUSD", .buy, 1/1000, none, none, none⟩).transportCalls = 0 ∧
    (executeTrade ⟨0, none, true, true, ⟨true, none⟩, ⟨true, none⟩⟩
      ⟨"EURUSD", .buy, 1/1000, none, none, none⟩).result.success = false := by
  have h : ((⟨"EURUSD", .buy, 1/1000, none, none, none⟩ :
      TradeParams)).volume < CONFIG.MIN_VOLUME ∨
      ((⟨"EURUSD", .buy, 1/1000, none, none, none⟩ :
      TradeParams)).volume > CONFIG.MAX_VOLUME := by
    left
    show (1/1000 : ℚ) < CONFIG.MIN_VOLUME
    norm_num [CONFIG.MIN_VOLUME]
  refine ⟨h, ?_, ?_⟩
  · exact (executeTrade_volume_validation
      ⟨0, none, true, true, ⟨true, none⟩, ⟨true, none⟩⟩
      ⟨"EURUSD", .buy, 1/1000, none, none, none⟩ h).1
  · exact (executeTrade_volume_validation
      ⟨0, none, true, true, ⟨true, none⟩, ⟨true, none⟩⟩
      ⟨"EURUSD", .buy, 1/1000, none, none, none⟩ h).2.1

/-- Any risk-rejected, structurally valid request returns the rejection
reason with no transport call, no `recordTrade` call and no failed
trading-history entry. -/
lemma executeTrade_risk_reject (env : ExecEnv) (params : TradeParams)
    (hval : (validateTrade params).isValid = true)
    (hrisk : (checkTrade env.positionsCount env.account params).allowed =
      false) :
    executeTrade env params =
      ⟨⟨false, (checkTrade env.positionsCount env.account params).reason⟩,
       0, 0, 0⟩ := by
  simp [executeTrade, hval, hrisk]

lemma validateTrade_risk_example :
    (validateTrade ⟨"EURUSD", .buy, 1/2, some 1, none,
      some (11/10)⟩).isValid = true := by
  have hsym : ¬ (("EURUSD" : String).length < 6) := by decide
  have hiv : (validateTrade ⟨"EURUSD", .buy, 1/2, some 1, none,
      some (11/10)⟩).isValid =
      (validateTrade ⟨"EURUSD", .buy, 1/2, some 1, none,
        some (11/10)⟩).errors.isEmpty := rfl
  rw [hiv]
  simp only [validateTrade, truthyOpt, Option.getD_some, Option.getD_none,
    hsym]
  norm_num [CONFIG.MIN_VOLUME, CONFIG.MAX_VOLUME]

lemma riskPercent_risk_example :
    riskPercentOf ⟨10000, 10000⟩
      ⟨"EURUSD", .buy, 1/2, some 1, none, some (11/10)⟩ = 50 := by
  unfold riskPercentOf riskAmountOf
  simp only [Option.getD_some]
  rw [show (11/10 : ℚ) - 1 = 1/10 by norm_num, abs_of_pos (by norm_num)]
  norm_num

lemma checkTrade_risk_example :
    (checkTrade 0 (some ⟨10000, 10000⟩)
      ⟨"EURUSD", .buy, 1/2, some 1, none, some (11/10)⟩).allowed = false := by
  rw [checkTrade.eq_def, if_neg (by simp [CONFIG.MAX_POSITIONS])]
  simp only [Option.any_some]
  rw [if_neg (by
    simp only [decide_eq_true_eq, calculateMargin]
    norm_num)]
  rw [if_pos (by
    simp only [truthyOpt, Option.getD_some, Bool.and_eq_true, bne_iff_ne,
      ne_eq]
    norm_num)]
  simp only [riskPercent_risk_example]
  rw [if_pos (by norm_num [CONFIG.MAX_RISK_PERCENT])]

/-- C8 counterexample: a concrete risk-rejected request (risk 50% of
balance against a 5% limit) is rejected by `checkTrade`, yet
`executeTrade` records no TradeRecord at all for the attempt: no
`recordTrade` call and no trading-history entry (and no transport call). -/
theorem executeTrade_risk_rejection_no_record :
    (checkTrade 0 (some ⟨10000, 10000⟩)
      ⟨"EURUSD", .buy, 1/2, some 1, none, some (11/10)⟩).allowed = false ∧
    (executeTrade ⟨0, some ⟨10000, 10000⟩, true, true, ⟨true, none⟩,
        ⟨true, none⟩⟩
      ⟨"EURUSD", .buy, 1/2, some 1, none, some (11/10)⟩).perfRecords = 0 ∧
    (executeTrade ⟨0, some ⟨10000, 10000⟩, true, true, ⟨true, none⟩,
        ⟨true, none⟩⟩
      ⟨"EURUSD", .buy, 1/2, some 1, none, some (11/10)⟩).historyFailed = 0 ∧
    (executeTrade ⟨0, some ⟨10000, 10000⟩, true, true, ⟨true, none⟩,
        ⟨true, none⟩⟩
      ⟨"EURUSD", .buy, 1/2, some 1, none, some (11/10)⟩).transportCalls
      = 0 := by
  have hexec := executeTrade_risk_reject
    ⟨0, some ⟨10000, 10000⟩, true, true, ⟨true, none⟩, ⟨true, none⟩⟩
    ⟨"EURUSD", .buy, 1/2, some 1, none, some (11/10)⟩
    validateTrade_risk_example checkTrade_risk_example
  exact ⟨checkTrade_risk_example, by rw [hexec], by rw [hexec],
    by rw [hexec]⟩

/-- C8 (amended): for every structurally valid trade request rejected by
`RiskManager.checkTrade`, `executeTrade` surfaces the rejection reason to
the caller and makes no transport call; no TradeRecord is recorded for
the rejected attempt (neither a `recordTrade` call nor a trading-history
entry). -/
theorem executeTrade_risk_rejection_spec :
    ∀ (env : ExecEnv) (params : TradeParams),
      (validateTrade params).isValid = true →
      (checkTrade env.positionsCount env.account params).allowed = false →
      executeTrade env params =
        ⟨⟨false, (checkTrade env.positionsCount env.account params).reason⟩,
         0, 0, 0⟩ := by
  intro env params hval hrisk
  exact executeTrade_risk_reject env params hval hrisk

/-- Witness for C8 (amended) at the concrete risk-rejected request. -/
theorem executeTrade_risk_rejection_spec_witness :
    ((validateTrade ⟨"EURUSD", .buy, 1/2, some 1, none,
        some (11/10)⟩).isValid = true ∧
     (checkTrade 0 (some ⟨10000, 10000⟩)
        ⟨"EURUSD", .buy, 1/2, some 1, none, some (11/10)⟩).allowed =
       false) ∧
    executeTrade ⟨0, some ⟨10000, 10000⟩, true, true, ⟨true, none⟩,
        ⟨true, none⟩⟩
      ⟨"EURUSD", .buy, 1/2, some 1, none, some (11/10)⟩ =
      ⟨⟨false, (checkTrade 0 (some ⟨10000, 10000⟩)
          ⟨"EURUSD", .buy, 1/2, some 1, none, some (11/10)⟩).reason⟩,
       0, 0, 0⟩ := by
  refine ⟨⟨validateTrade_risk_example, checkTrade_risk_example⟩, ?_⟩
  exact executeTrade_risk_rejection_spec
    ⟨0, some ⟨10000, 10000⟩, true, true, ⟨true, none⟩, ⟨true, none⟩⟩
    ⟨"EURUSD", .buy, 1/2, some 1, none, some (11/10)⟩
    validateTrade_risk_example checkTrade_risk_example

end Webview
